import Mathlib

/-!
Shallow embedding of the email triage route handler (analyze / compose
pipelines) and proofs of the specification claims about it.

Strings are modelled by Lean `String` (a packed `List Char`); JavaScript
regular-expression tests used by the source are embedded as explicit
decision procedures over `List Char` (word boundaries follow the JS `\b`
semantics on the ASCII word-character class `[A-Za-z0-9_]`).
-/

namespace EmailAgent

/-- Sentiment enumeration from the analyze payload. -/
inductive Sentiment
  | positive
  | neutral
  | negative
deriving DecidableEq, Repr

/-- Priority enumeration from the analyze payload. -/
inductive Priority
  | low
  | medium
  | high
deriving DecidableEq, Repr

/-- Tone enumeration shared by both pipelines. -/
inductive Tone
  | professional
  | friendly
  | concise
  | assertive
  | warm
deriving DecidableEq, Repr

/-- A Task entry from the analyze payload (`description`, optional `due`,
optional `owner`). -/
structure Task where
  description : String
  due : Option String
  owner : Option String
deriving DecidableEq, Repr

/-- The recommended reply (subject and body). -/
structure Reply where
  subject : String
  body : String
deriving DecidableEq, Repr

/-- The `AnalyzePayload` record returned by the analyze pipeline. -/
structure AnalyzePayload where
  summary : String
  sentiment : Sentiment
  priority : Priority
  tags : List String
  subjectSuggestion : String
  tasks : List Task
  followUpRecommendation : String
  recommendedReply : Reply
deriving DecidableEq, Repr

/-- The `ComposePayload` record returned by the compose pipeline. -/
structure ComposePayload where
  subject : String
  preview : String
  body : String
  cadenceTip : String
deriving DecidableEq, Repr

/-- A `(subject, opening, closing)` template triple. -/
structure Template where
  subject : String
  opening : String
  closing : String
deriving DecidableEq, Repr

/-- The fixed `FOLLOW_UP_TEMPLATES` table keyed by tone. -/
def FOLLOW_UP_TEMPLATES : Tone → Template
  | .professional =>
    { subject := "Quick follow-up on your message"
      opening := "Thank you for reaching out. I wanted to follow up on your note."
      closing := "Let me know if you need anything else in the meantime and I'll happily assist." }
  | .friendly =>
    { subject := "Thanks for the update!"
      opening := "Thanks a bunch for the message. I wanted to keep the momentum going."
      closing := "Looking forward to hearing back when you have a moment." }
  | .concise =>
    { subject := "Following up"
      opening := "Appreciate the note. Here's what we'll do next:"
      closing := "Ping me if priorities change." }
  | .assertive =>
    { subject := "Action needed"
      opening := "Thanks for the details. To keep us on schedule we need to tackle the following:"
      closing := "Please confirm the action items so we can close the loop without delay." }
  | .warm =>
    { subject := "Appreciate the note"
      opening := "Thank you so much for your thoughtful message. Here's how I'll move things forward:"
      closing := "Let me know how it all lands—always glad to support where I can." }

/-- `POSITIVE_WORDS` constant from the source. -/
def POSITIVE_WORDS : List String :=
  ["thank", "appreciate", "great", "glad", "pleased", "happy", "excited"]

/-- `NEGATIVE_WORDS` constant from the source. -/
def NEGATIVE_WORDS : List String :=
  ["concern", "issue", "problem", "delayed", "delay", "blocked", "urgent",
   "frustrated", "disappointed"]

/-- `URGENCY_WORDS` constant from the source. -/
def URGENCY_WORDS : List String :=
  ["urgent", "asap", "immediately", "priority", "important"]

/-- Does `nee` appear as a contiguous sublist of the second argument?
Embeds JavaScript `String.prototype.includes`. -/
def containsSub (nee : List Char) : List Char → Bool
  | [] => nee.isEmpty
  | c :: t => nee.isPrefixOf (c :: t) || containsSub nee t

/-- Lower-case a string character by character (embeds `toLowerCase` on the
ASCII range the word lists live in). -/
def toLowerStr (s : String) : String :=
  String.mk (s.data.map Char.toLower)

/-- `hay.includes(word)` on strings. -/
def strIncludes (hay word : String) : Bool :=
  containsSub word.data hay.data

/-- Number of positive-word substring hits in the lower-cased content. -/
def positiveHits (content : String) : Nat :=
  (POSITIVE_WORDS.filter (fun w => strIncludes (toLowerStr content) w)).length

/-- Number of negative-word substring hits in the lower-cased content. -/
def negativeHits (content : String) : Nat :=
  (NEGATIVE_WORDS.filter (fun w => strIncludes (toLowerStr content) w)).length

/-- `detectSentiment` from the source. -/
def detectSentiment (content : String) : Sentiment :=
  if positiveHits content = negativeHits content then .neutral
  else if positiveHits content > negativeHits content then .positive
  else .negative

/-- The JS `\w` class `[A-Za-z0-9_]`. -/
def isWordChar (c : Char) : Bool :=
  c.isAlpha || c.isDigit || c = '_'

/-- `\b` holds after the match iff the remainder starts with a non-word
character (or is empty); used for tokens ending in a word character. -/
def nonWordStart : List Char → Bool
  | [] => true
  | c :: _ => !isWordChar c

/-- Does a token accepted by `tok` start here, followed by a `\b`
boundary? Tries every prefix length. -/
def tokenAt (tok : List Char → Bool) (cs : List Char) : Bool :=
  (List.range (cs.length + 1)).any (fun n => tok (cs.take n) && nonWordStart (cs.drop n))

/-- Scan for a `\b<token>\b` occurrence; the flag records whether the
previous character was a word character (so `\b` holds at a position
iff the flag is false, since our tokens start with word characters). -/
def hasTokenFrom (tok : List Char → Bool) : Bool → List Char → Bool
  | _, [] => false
  | prevW, c :: rest =>
    (!prevW && tokenAt tok (c :: rest)) || hasTokenFrom tok (isWordChar c) rest

/-- `\b<token>\b` appears somewhere in `cs`. -/
def hasToken (tok : List Char → Bool) (cs : List Char) : Bool :=
  hasTokenFrom tok false cs

/-- The token shapes of `\d{1,2}\/\d{1,2}`. -/
def isDateToken : List Char → Bool
  | [a, '/', b] => a.isDigit && b.isDigit
  | [a, b, '/', c] => a.isDigit && b.isDigit && c.isDigit
  | [a, '/', b, c] => a.isDigit && b.isDigit && c.isDigit
  | [a, b, '/', c, d] => a.isDigit && b.isDigit && c.isDigit && d.isDigit
  | _ => false

/-- The alternatives of `\b(next week|soon|follow up)\b` (the content is
already lower-cased when this regex runs). -/
def isSchedulePhrase (m : List Char) : Bool :=
  m == "next week".data || m == "soon".data || m == "follow up".data

/-- The alternatives of `\b(wait|await|response|hear back)\b`. -/
def isWaitWord (m : List Char) : Bool :=
  m == "wait".data || m == "await".data || m == "response".data || m == "hear back".data

/-- `URGENCY_WORDS.some(word => normalized.includes(word))`. -/
def urgencyHit (content : String) : Bool :=
  URGENCY_WORDS.any (fun w => strIncludes (toLowerStr content) w)

/-- `/\b\d{1,2}\/\d{1,2}\b/.test(normalized)`. -/
def dateTokenHit (content : String) : Bool :=
  hasToken isDateToken (toLowerStr content).data

/-- `/\b(next week|soon|follow up)\b/.test(normalized)`. -/
def schedulePhraseHit (content : String) : Bool :=
  hasToken isSchedulePhrase (toLowerStr content).data

/-- `determinePriority` from the source. -/
def determinePriority (content : String) : Priority :=
  if urgencyHit content then .high
  else if dateTokenHit content then .medium
  else if schedulePhraseHit content then .medium
  else .low

/-- Whitespace trimming at both ends (embeds `String.prototype.trim`). -/
def trimChars (cs : List Char) : List Char :=
  ((cs.dropWhile (fun c => c.isWhitespace)).reverse.dropWhile (fun c => c.isWhitespace)).reverse

/-- `content.trim()` at the string level. -/
def trimStr (s : String) : String :=
  String.mk (trimChars s.data)

/-- Splitting on `/\r?\n/` (embeds `content.split(/\r?\n/)`). -/
def splitLinesAux : List Char → List Char → List (List Char)
  | acc, [] => [acc.reverse]
  | acc, '\r' :: '\n' :: rest => acc.reverse :: splitLinesAux [] rest
  | acc, '\n' :: rest => acc.reverse :: splitLinesAux [] rest
  | acc, c :: rest => splitLinesAux (c :: acc) rest

/-- All lines of the content, in source order. -/
def splitLines (cs : List Char) : List (List Char) :=
  splitLinesAux [] cs

/-- Splitting on `/\s+/` (JS semantics: a separator match at the string
edge produces an empty piece).  The flag is true while consuming a
whitespace run that has already emitted its piece. -/
def splitWSAux : Bool → List Char → List Char → List (List Char)
  | _, acc, [] => [acc.reverse]
  | true, acc, c :: rest =>
    if c.isWhitespace then splitWSAux true acc rest
    else splitWSAux false [c] rest
  | false, acc, c :: rest =>
    if c.isWhitespace then acc.reverse :: splitWSAux true [] rest
    else splitWSAux false (c :: acc) rest

/-- `s.split(/\s+/).length`. -/
def splitWSCount (s : String) : Nat :=
  (splitWSAux false [] s.data).length

/-- `Array.prototype.join(sep)`. -/
def joinWith (sep : String) : List String → String
  | [] => ""
  | [s] => s
  | s :: rest => s ++ sep ++ joinWith sep rest

/-- `capitalize` from the source, on character lists. -/
def capitalizeChars : List Char → List Char
  | [] => []
  | c :: rest => c.toUpper :: rest

/-- `capitalize` from the source. -/
def capitalizeStr (s : String) : String :=
  String.mk (capitalizeChars s.data)

/-- `titleCase` from the source: lower-case, split on whitespace runs,
capitalize each part, join with single spaces. -/
def titleCase (cs : List Char) : String :=
  joinWith " " (((splitWSAux false [] (cs.map Char.toLower)).map capitalizeChars).map String.mk)

/-- Strips the leading bullet marker (`line.replace(/^(\*|-|\d+\.)\s*/, "")`).
With backtracking, the `\d+\.` branch matches exactly the maximal leading
digit run when it is followed by a dot. -/
def stripBullet (cs : List Char) : List Char :=
  match cs with
  | '*' :: rest => rest.dropWhile (fun c => c.isWhitespace)
  | '-' :: rest => rest.dropWhile (fun c => c.isWhitespace)
  | c :: _ =>
    if c.isDigit then
      match cs.dropWhile Char.isDigit with
      | '.' :: rest => rest.dropWhile (fun c => c.isWhitespace)
      | _ => cs
    else cs
  | [] => []

/-- `/^(\*|-|\d+\.)/.test(line.trim())`. -/
def startsBullet (cs : List Char) : Bool :=
  match cs with
  | '*' :: _ => true
  | '-' :: _ => true
  | c :: _ =>
    c.isDigit &&
      (match cs.dropWhile Char.isDigit with
       | '.' :: _ => true
       | _ => false)
  | [] => false

/-- Case-insensitive substring test against a list of (lower-case)
patterns; embeds `/(please|can you|could you|action)/i.test(line)`. -/
def containsAnyCI (line : List Char) (pats : List String) : Bool :=
  pats.any (fun p => containsSub p.data (line.map Char.toLower))

/-- Case-insensitive literal-prefix test (`i`-flagged regex literal). -/
def ciPrefix (pat cs : List Char) : Bool :=
  pat.isPrefixOf (cs.map Char.toLower)

/-- The leading whitespace run (`\s+`, greedy). -/
def wsRun (cs : List Char) : List Char :=
  cs.takeWhile (fun c => c.isWhitespace)

/-- `next\s+week` alternative of the due-date group; returns the matched
text (original case). -/
def altNextWeek (cs : List Char) : Option (List Char) :=
  if ciPrefix "next".data cs then
    let r := cs.drop 4
    let ws := wsRun r
    if ws.isEmpty then none
    else if ciPrefix "week".data (r.drop ws.length) then
      some (cs.take 4 ++ ws ++ (r.drop ws.length).take 4)
    else none
  else none

/-- A case-insensitive literal alternative; returns the matched text. -/
def altLit (pat cs : List Char) : Option (List Char) :=
  if ciPrefix pat cs then some (cs.take pat.length) else none

/-- `\d{1,2}` right of the slash: greedy, prefers two digits. -/
def afterSlash : List Char → Option (List Char)
  | c :: d :: _ =>
    if c.isDigit then (if d.isDigit then some [c, d] else some [c]) else none
  | [c] => if c.isDigit then some [c] else none
  | [] => none

/-- `\d{1,2}\/\d{1,2}` alternative with backtracking semantics: two
leading digits force the two-digit branch (a one-digit retry would need
`/` where a digit stands). -/
def altDate : List Char → Option (List Char)
  | a :: b :: rest =>
    if a.isDigit then
      if b.isDigit then
        match rest with
        | '/' :: rest2 => (afterSlash rest2).map (fun t => a :: b :: '/' :: t)
        | _ => none
      else if b = '/' then (afterSlash rest).map (fun t => a :: '/' :: t)
      else none
    else none
  | _ => none

/-- `\w+\s+\d{1,2}` alternative: `\w+` must take the maximal word run
(backtracking cannot shorten it, because a word character never matches
`\s`), then a whitespace run, then one or two digits (greedy). -/
def altWordNum (cs : List Char) : Option (List Char) :=
  let w := cs.takeWhile isWordChar
  if w.isEmpty then none
  else
    let r := cs.drop w.length
    let ws := wsRun r
    if ws.isEmpty then none
    else
      let ds := (r.drop ws.length).takeWhile Char.isDigit
      if ds.isEmpty then none else some (w ++ ws ++ ds.take 2)

/-- The capture group of
`(?:next\s+week|tomorrow|today|\d{1,2}\/\d{1,2}|\w+\s+\d{1,2})`,
alternatives tried in source order. -/
def matchDueGroup (cs : List Char) : Option (List Char) :=
  match altNextWeek cs with
  | some m => some m
  | none =>
    match altLit "tomorrow".data cs with
    | some m => some m
    | none =>
      match altLit "today".data cs with
      | some m => some m
      | none =>
        match altDate cs with
        | some m => some m
        | none => altWordNum cs

/-- Left-to-right scan of `/\bby\s+(<group>)/i`; the flag tracks whether
the previous character was a word character (`\b` before the literal
`by`). -/
def findDueFrom : Bool → List Char → Option (List Char)
  | _, [] => none
  | prevW, c :: rest =>
    let here : Option (List Char) :=
      if !prevW && ciPrefix "by".data (c :: rest) then
        let r := (c :: rest).drop 2
        let ws := wsRun r
        if ws.isEmpty then none else matchDueGroup (r.drop ws.length)
      else none
    match here with
    | some cap => some cap
    | none => findDueFrom (isWordChar c) rest

/-- First capture of `/\bby\s+(...)/i` over the description. -/
def findDue (cs : List Char) : Option (List Char) :=
  findDueFrom false cs

/-- Left-to-right scan of `/\b(?:due|deadline)\s+(\w+\s+\d{1,2})/i`. -/
def findDueLineFrom : Bool → List Char → Option (List Char)
  | _, [] => none
  | prevW, c :: rest =>
    let here : Option (List Char) :=
      if prevW then none
      else
        let cs := c :: rest
        let afterKw : Option (List Char) :=
          if ciPrefix "due".data cs then some (cs.drop 3)
          else if ciPrefix "deadline".data cs then some (cs.drop 8)
          else none
        match afterKw with
        | some r =>
          let ws := wsRun r
          if ws.isEmpty then none else altWordNum (r.drop ws.length)
        | none => none
    match here with
    | some cap => some cap
    | none => findDueLineFrom (isWordChar c) rest

/-- First capture of `/\b(?:due|deadline)\s+(\w+\s+\d{1,2})/i` over the
original line. -/
def findDueLine (cs : List Char) : Option (List Char) :=
  findDueLineFrom false cs

/-- Left-to-right scan of `/\bfor\s+([A-Z][a-z]+)/` (case-sensitive). -/
def findOwnerFrom : Bool → List Char → Option (List Char)
  | _, [] => none
  | prevW, c :: rest =>
    let here : Option (List Char) :=
      if prevW then none
      else
        let cs := c :: rest
        if "for".data.isPrefixOf cs then
          let r := cs.drop 3
          let ws := wsRun r
          if ws.isEmpty then none
          else
            match r.drop ws.length with
            | u :: r2 =>
              if u.isUpper then
                let ls := r2.takeWhile Char.isLower
                if ls.isEmpty then none else some (u :: ls)
              else none
            | [] => none
        else none
    match here with
    | some cap => some cap
    | none => findOwnerFrom (isWordChar c) rest

/-- First capture of `/\bfor\s+([A-Z][a-z]+)/` over the description. -/
def findOwner (cs : List Char) : Option (List Char) :=
  findOwnerFrom false cs

/-- The task built from one qualifying line (the mapping body inside
`extractTasks`). -/
def mkTask (line : List Char) : Task :=
  let description := trimChars (stripBullet line)
  let dueCap : Option (List Char) :=
    match findDue description with
    | some m => some m
    | none => findDueLine line
  let due : Option String :=
    match dueCap with
    | some m => if m.isEmpty then none else some (titleCase m)
    | none => none
  { description := String.mk (capitalizeChars description)
    due := due
    owner := (findOwner description).map String.mk }

/-- The task-line filter of `extractTasks`. -/
def isTaskLine (line : List Char) : Bool :=
  startsBullet (trimChars line) || containsAnyCI line ["please", "can you", "could you", "action"]

/-- `extractTasks` from the source. -/
def extractTasks (content : String) : List Task :=
  let taskLines := (splitLines content.data).filter isTaskLine
  (taskLines.map mkTask).filter (fun t => t.description ≠ "")

/-- `content.replace(/\n+/g, " ")`: each maximal newline run becomes a
single space.  The flag is true while inside a newline run that has
already emitted its space. -/
def collapseNL : Bool → List Char → List Char
  | _, [] => []
  | inRun, c :: rest =>
    if c = '\n' then
      (if inRun then collapseNL true rest else ' ' :: collapseNL true rest)
    else c :: collapseNL false rest

/-- Is the head of the accumulated (reversed) piece a sentence-ending
punctuation mark?  This is the `(?<=[.?!])` lookbehind. -/
def isPunctHead : List Char → Bool
  | p :: _ => p = '.' || p = '?' || p = '!'
  | [] => false

/-- `split(/(?<=[.?!])\s+/)`: cut at each whitespace run whose first
character is preceded by `.`, `?` or `!`.  The flag is true while
consuming a separator run. -/
def splitSentAux : Bool → List Char → List Char → List (List Char)
  | _, acc, [] => [acc.reverse]
  | true, acc, c :: rest =>
    if c.isWhitespace then splitSentAux true acc rest
    else splitSentAux false [c] rest
  | false, acc, c :: rest =>
    if c.isWhitespace && isPunctHead acc then
      acc.reverse :: splitSentAux true [] rest
    else splitSentAux false (c :: acc) rest

/-- The sentence pieces of `summarize` (split after newline collapsing). -/
def sentencePieces (cs : List Char) : List (List Char) :=
  splitSentAux false [] (collapseNL false cs)

/-- `sentences.filter(Boolean).slice(0, 3).join(" ")`. -/
def computedSummary (content : String) : String :=
  joinWith " " ((((sentencePieces content.data).map String.mk).filter (fun s => s ≠ "")).take 3)

/-- The thread-context note (empty unless `threadHistory` is a present,
non-empty string — JS truthiness). -/
def historyNote (threadHistory : Option String) : String :=
  match threadHistory with
  | some th =>
    if th = "" then ""
    else " Thread context considered (" ++ toString (splitWSCount th) ++ " words)."
  | none => ""

/-- `summarize` from the source; `summary || "No summary available." + historyNote`
appends the note only to the fallback because `+` binds tighter than `||`. -/
def summarize (content : String) (threadHistory : Option String) : String :=
  let summary := computedSummary content
  if summary = "" then "No summary available." ++ historyNote threadHistory else summary

/-- `buildSubject` from the source. -/
def buildSubject (tasks : List Task) (priority : Priority) (sentiment : Sentiment) : String :=
  let leadTask :=
    match tasks.head? with
    | some t => t.description
    | none => ""
  let tag :=
    if priority = .high then "Urgent"
    else if sentiment = .positive then "Update"
    else "Follow-up"
  if leadTask ≠ "" then "[" ++ tag ++ "] " ++ leadTask
  else
    match priority with
    | .high => "[Urgent] Action required on latest request"
    | .medium => "Next steps for your email"
    | .low => "Thanks for the update — here's the plan"

/-- JS truthiness of an optional string. -/
def optTruthy : Option String → Bool
  | none => false
  | some s => s ≠ ""

/-- Insertion into the insertion-ordered tag set (`Set.prototype.add`). -/
def setAdd (l : List String) (x : String) : List String :=
  if x ∈ l then l else l ++ [x]

/-- `buildTags` from the source. -/
def buildTags (priority : Priority) (sentiment : Sentiment) (tasks : List Task) : List String :=
  let t1 := setAdd []
    (if priority = .high then "Hot" else if priority = .medium then "Follow-up" else "Backlog")
  let t2 := setAdd t1
    (if sentiment = .positive then "Relationship"
     else if sentiment = .negative then "Risk" else "Neutral")
  let t3 := if tasks.length > 0 then setAdd t2 "Action items" else t2
  let t4 := if tasks.any (fun t => optTruthy t.owner) then setAdd t3 "Delegation" else t3
  t4

/-- `buildFollowUpRecommendation` from the source. -/
def buildFollowUpRecommendation (priority : Priority) (tasks : List Task)
    (content : String) : String :=
  let waitingForResponse := hasToken isWaitWord (toLowerStr content).data
  if priority = .high then
    "Follow up within 4 business hours and confirm ownership of each task."
  else if waitingForResponse then
    "Schedule a reminder in 2 days to check for updates."
  else if tasks.length > 0 then
    "Log tasks in your system and share a progress update within 24 hours."
  else
    "Archive for now, revisit over the weekend for any broader updates."

/-- The persona rewrite of the template opening
(`opening.replace(/^(Thank you|Thanks)/, ...)`; the longer alternative is
tried first). -/
def personalize (opening persona : String) : String :=
  if "Thank you".data.isPrefixOf opening.data then
    "Hi " ++ persona ++ ", thank you" ++ String.mk (opening.data.drop 9)
  else if "Thanks".data.isPrefixOf opening.data then
    "Hi " ++ persona ++ ", thanks" ++ String.mk (opening.data.drop 6)
  else opening

/-- `generateReply` from the source. -/
def generateReply (tone : Tone) (tasks : List Task) (summary : String)
    (persona : Option String) : Reply :=
  let template := FOLLOW_UP_TEMPLATES tone
  let intro :=
    match persona with
    | some p => if p = "" then template.opening else personalize template.opening p
    | none => template.opening
  let bulletSection :=
    if tasks.length > 0 then
      "\n\nHere's what I'm tracking:\n" ++
        joinWith "\n" (tasks.map (fun task =>
          let due :=
            match task.due with
            | some d => if d = "" then "" else " (due " ++ d ++ ")"
            | none => ""
          let owner :=
            match task.owner with
            | some o => if o = "" then "" else " — owner: " ++ o
            | none => ""
          "• " ++ task.description ++ due ++ owner))
    else ""
  let body := intro ++ "\n\n" ++ summary ++ bulletSection ++ "\n\n" ++
    template.closing ++ "\n\nBest,\nYour Email Agent"
  { subject := template.subject, body := body }

/-- `analyzeEmail` from the source. -/
def analyzeEmail (content : String) (threadHistory persona : Option String) : AnalyzePayload :=
  let sentiment := detectSentiment content
  let priority := determinePriority content
  let tasks := extractTasks content
  let subjectSuggestion := buildSubject tasks priority sentiment
  let summary := summarize content threadHistory
  let tags := buildTags priority sentiment tasks
  let followUpRecommendation := buildFollowUpRecommendation priority tasks content
  let tone : Tone := if priority = .high then .assertive else .professional
  let recommendedReply := generateReply tone tasks summary persona
  { summary := summary
    sentiment := sentiment
    priority := priority
    tags := tags
    subjectSuggestion := subjectSuggestion
    tasks := tasks
    followUpRecommendation := followUpRecommendation
    recommendedReply := recommendedReply }

/-- `craftSubjectFromObjective` from the source. -/
def craftSubjectFromObjective (objective fallback : String) : String :=
  if objective = "" then fallback
  else
    let normalized := toLowerStr objective
    if strIncludes normalized "update" then "Quick project update"
    else if strIncludes normalized "intro" then "Introduction and next steps"
    else if strIncludes normalized "meeting" then "Proposed agenda for our meeting"
    else if strIncludes normalized "feedback" then "Feedback and proposed improvements"
    else capitalizeStr objective

/-- The two sequential leading replaces inside `craftOpening`. -/
def soften (opening : String) : String :=
  let s1 :=
    if "Thank you".data.isPrefixOf opening.data then
      "thank you" ++ String.mk (opening.data.drop 9)
    else opening
  if "Thanks".data.isPrefixOf s1.data then
    "thanks" ++ String.mk (s1.data.drop 6)
  else s1

/-- `craftOpening` from the source. -/
def craftOpening (templateOpening audience : String) (tone : Tone) : String :=
  let recipient := trimStr audience
  if recipient = "" then templateOpening
  else
    let greeting := if tone = .friendly || tone = .warm then "Hi" else "Hello"
    greeting ++ " " ++ recipient ++ ", " ++ soften templateOpening

/-- `body.replace(/\s+/g, " ")`: each maximal whitespace run becomes a
single space. -/
def collapseWS : Bool → List Char → List Char
  | _, [] => []
  | inRun, c :: rest =>
    if c.isWhitespace then
      (if inRun then collapseWS true rest else ' ' :: collapseWS true rest)
    else c :: collapseWS false rest

/-- The condensed body used by `buildPreview`. -/
def collapsedBody (body : String) : List Char :=
  trimChars (collapseWS false body.data)

/-- Truncation with ellipsis (`condensed.slice(0, 140) + (condensed.length > 140 ? "..." : "")`). -/
def previewChars (condensed : List Char) : List Char :=
  condensed.take 140 ++ (if 140 < condensed.length then "...".data else [])

/-- `buildPreview` from the source. -/
def buildPreview (body : String) : String :=
  String.mk (previewChars (collapsedBody body))

/-- `buildCadenceTip` from the source. -/
def buildCadenceTip (tone : Tone) (cleanPoints : List String) : String :=
  let base :=
    if tone = .assertive then
      "Set a reminder to nudge the recipient within 1 business day."
    else if tone = .concise then
      "Share a short recap if you do not hear back within 2 days."
    else
      "Send a friendly check-in if there's no response within 3 days."
  if cleanPoints.length > 2 then
    base ++ " Consider bolding the key decisions to make scanning easier."
  else base

/-- `composeEmail` from the source (the caller passes already-trimmed
`audience`, `objective`, `callToAction` and `signature`, as `POST` does). -/
def composeEmail (audience objective : String) (tone : Tone) (keyPoints : List String)
    (callToAction signature : Option String) : ComposePayload :=
  let cleanPoints :=
    (((keyPoints.map trimStr).filter (fun p => p ≠ "")).map (fun p =>
      if "-".data.isPrefixOf p.data then trimStr (String.mk (p.data.drop 1)) else p))
  let toneTemplate := FOLLOW_UP_TEMPLATES tone
  let subject := craftSubjectFromObjective objective toneTemplate.subject
  let opening := craftOpening toneTemplate.opening audience tone
  let bodyPoints :=
    if cleanPoints.length > 0 then
      joinWith "\n" (cleanPoints.map (fun p => "• " ++ capitalizeStr p))
    else "• Key details are included in the attachments."
  let callout :=
    match callToAction with
    | some c => if c = "" then "" else "\n\nNext up: " ++ capitalizeStr c ++ "."
    | none => ""
  let closing := toneTemplate.closing
  let signoff :=
    match signature with
    | some s => s
    | none =>
      if tone = .friendly || tone = .warm then "All the best,\nYour Email Agent"
      else "Best regards,\nYour Email Agent"
  let body := opening ++ "\n\n" ++
    (if objective ≠ "" then "Objective: " ++ capitalizeStr objective ++ "\n\n" else "") ++
    bodyPoints ++ callout ++ "\n\n" ++ closing ++ "\n\n" ++ signoff
  { subject := subject
    preview := buildPreview body
    body := body
    cadenceTip := buildCadenceTip tone cleanPoints }

/-- The request union handled by `POST` (any unrecognized mode collapses
to `otherReq`). -/
inductive ApiRequest
  | analyzeReq (content : String) (threadHistory persona : Option String)
  | composeReq (audience objective : String) (tone : Tone) (keyPoints : List String)
      (callToAction signature : Option String)
  | otherReq
deriving DecidableEq, Repr

/-- The response: a success payload of either shape, or an error message
(the 400 branches of `POST`). -/
inductive ApiResponse
  | okAnalyze (p : AnalyzePayload)
  | okCompose (p : ComposePayload)
  | err (message : String)
deriving DecidableEq, Repr

/-- Is the response the error shape? -/
def ApiResponse.isErr : ApiResponse → Bool
  | .err _ => true
  | _ => false

/-- The `POST` request handler from the source. -/
def POST : ApiRequest → ApiResponse
  | .analyzeReq content threadHistory persona =>
    let c := trimStr content
    if c = "" then .err "Email content is required."
    else .okAnalyze (analyzeEmail c threadHistory persona)
  | .composeReq audience objective tone keyPoints callToAction signature =>
    .okCompose (composeEmail (trimStr audience) (trimStr objective) tone keyPoints
      (callToAction.map trimStr) (signature.map trimStr))
  | .otherReq => .err "Unsupported mode."

/-- Number of non-whitespace characters (proof-side measure). -/
def countNW (l : List Char) : Nat :=
  l.countP (fun c => !c.isWhitespace)

/-- Does the string end with the three-character ellipsis `...`? -/
def endsWithDots (s : String) : Bool :=
  s.data.reverse.take 3 == ['.', '.', '.']

/-! ## Theorems -/

/-- Unfolding `analyzeEmail` into its field computations. -/
theorem analyzeEmail_eq (c : String) (th p : Option String) :
    analyzeEmail c th p =
      { summary := summarize c th
        sentiment := detectSentiment c
        priority := determinePriority c
        tags := buildTags (determinePriority c) (detectSentiment c) (extractTasks c)
        subjectSuggestion := buildSubject (extractTasks c) (determinePriority c) (detectSentiment c)
        tasks := extractTasks c
        followUpRecommendation :=
          buildFollowUpRecommendation (determinePriority c) (extractTasks c) c
        recommendedReply :=
          generateReply (if determinePriority c = .high then .assertive else .professional)
            (extractTasks c) (summarize c th) p } := rfl

/-- C1: the sentiment is positive iff the positive substring-hit count
exceeds the negative one, negative iff the converse strict inequality
holds, and neutral iff the two counts are equal. -/
theorem detectSentiment_spec (c : String) :
    (detectSentiment c = .positive ↔ negativeHits c < positiveHits c) ∧
    (detectSentiment c = .negative ↔ positiveHits c < negativeHits c) ∧
    (detectSentiment c = .neutral ↔ positiveHits c = negativeHits c) := by
  unfold detectSentiment
  rcases Nat.lt_trichotomy (positiveHits c) (negativeHits c) with h | h | h
  · rw [if_neg (Nat.ne_of_lt h), if_neg (by omega)]
    refine ⟨?_, ?_, ?_⟩ <;> constructor <;> intro hh <;> first | omega | simp_all
  · rw [if_pos h]
    refine ⟨?_, ?_, ?_⟩ <;> constructor <;> intro hh <;> first | omega | simp_all
  · rw [if_neg (by omega), if_pos (by omega)]
    refine ⟨?_, ?_, ?_⟩ <;> constructor <;> intro hh <;> first | omega | simp_all

/-- A content whose lower-casing contains `asap` triggers the urgency
word list. -/
theorem urgency_of_asap (c : String) (h : strIncludes (toLowerStr c) "asap" = true) :
    urgencyHit c = true := by
  unfold urgencyHit
  simp only [List.any_eq_true]
  exact ⟨"asap", by simp [URGENCY_WORDS], h⟩

/-- C2: priority classification follows the strict precedence
urgency-substring > numeric date token > schedule phrase > low, and any
content containing `asap` case-insensitively is classified high. -/
theorem determinePriority_spec (c : String) :
    (determinePriority c = .high ↔ urgencyHit c = true) ∧
    (determinePriority c = .medium ↔
      urgencyHit c = false ∧ (dateTokenHit c = true ∨ schedulePhraseHit c = true)) ∧
    (determinePriority c = .low ↔
      urgencyHit c = false ∧ dateTokenHit c = false ∧ schedulePhraseHit c = false) ∧
    (strIncludes (toLowerStr c) "asap" = true → determinePriority c = .high) := by
  refine ⟨?_, ?_, ?_, ?_⟩
  · unfold determinePriority
    cases hu : urgencyHit c <;> cases hd : dateTokenHit c <;> cases hp : schedulePhraseHit c <;>
      simp
  · unfold determinePriority
    cases hu : urgencyHit c <;> cases hd : dateTokenHit c <;> cases hp : schedulePhraseHit c <;>
      simp
  · unfold determinePriority
    cases hu : urgencyHit c <;> cases hd : dateTokenHit c <;> cases hp : schedulePhraseHit c <;>
      simp
  · intro h
    unfold determinePriority
    rw [urgency_of_asap c h]
    rfl

/-- Witness for C2: a content containing `ASAP`, a date token and
`next week` is still classified high. -/
theorem determinePriority_spec_witness :
    determinePriority "Reply ASAP by 5/12 next week" = .high :=
  (determinePriority_spec "Reply ASAP by 5/12 next week").2.2.2 (by decide)

/-- C3 counterexample: on the example content the extracted task list is
not the one the claim states (the description is the whole line and no
due date is captured). -/
theorem analyze_example_counterexample :
    (analyzeEmail "Please update the docs by Thursday. Thanks so much, this is urgent!"
        none none).tasks ≠
      [{ description := "Please update the docs by Thursday."
         due := some "Thursday"
         owner := none }] := by
  decide

/-- C3 amended: on the example content the analyze pipeline returns
neutral sentiment, high priority, a single task whose description is the
entire line with no due date and no owner, and tags containing both
`Hot` and `Action items`. -/
theorem analyze_example_amended :
    (analyzeEmail "Please update the docs by Thursday. Thanks so much, this is urgent!"
        none none).sentiment = .neutral ∧
    (analyzeEmail "Please update the docs by Thursday. Thanks so much, this is urgent!"
        none none).priority = .high ∧
    (analyzeEmail "Please update the docs by Thursday. Thanks so much, this is urgent!"
        none none).tasks =
      [{ description := "Please update the docs by Thursday. Thanks so much, this is urgent!"
         due := none
         owner := none }] ∧
    "Hot" ∈ (analyzeEmail "Please update the docs by Thursday. Thanks so much, this is urgent!"
        none none).tags ∧
    "Action items" ∈ (analyzeEmail
        "Please update the docs by Thursday. Thanks so much, this is urgent!" none none).tags := by
  refine ⟨by decide, by decide, by decide, by decide, by decide⟩

/-- C4: the thread-context note is appended only to the literal fallback
string; a non-empty computed summary is returned verbatim, whatever the
thread history is. -/
theorem summarize_spec (c : String) (th : Option String) :
    summarize c th =
      if computedSummary c = "" then "No summary available." ++ historyNote th
      else computedSummary c := rfl

/-- C10: the recommended reply derives an assertive tone exactly when the
priority is high (professional otherwise) and its subject is that tone's
fixed template subject. -/
theorem recommendedReply_subject_spec (c : String) (th p : Option String) :
    (analyzeEmail c th p).recommendedReply.subject =
      (FOLLOW_UP_TEMPLATES
        (if determinePriority c = .high then Tone.assertive else Tone.professional)).subject ∧
    (FOLLOW_UP_TEMPLATES Tone.assertive).subject = "Action needed" ∧
    (FOLLOW_UP_TEMPLATES Tone.professional).subject = "Quick follow-up on your message" := by
  refine ⟨?_, rfl, rfl⟩
  rw [analyzeEmail_eq]
  cases h : determinePriority c <;> simp [h, generateReply]

/-- C7: the tag list is exactly priority tag, sentiment tag, then the
optional `Action items` and `Delegation` entries; it has no duplicates,
and contains `Action items` iff the task list is non-empty. -/
theorem buildTags_spec (p : Priority) (s : Sentiment) (tasks : List Task) :
    buildTags p s tasks =
      [if p = .high then "Hot" else if p = .medium then "Follow-up" else "Backlog",
       if s = .positive then "Relationship" else if s = .negative then "Risk" else "Neutral"] ++
      (if tasks.length > 0 then ["Action items"] else []) ++
      (if tasks.any (fun t => optTruthy t.owner) then ["Delegation"] else []) ∧
    (buildTags p s tasks).Nodup ∧
    ("Action items" ∈ buildTags p s tasks ↔ tasks ≠ []) := by
  cases tasks with
  | nil => cases p <;> cases s <;> decide
  | cons hd tl =>
    cases h : (hd :: tl).any (fun t => optTruthy t.owner) <;> cases p <;> cases s <;>
      simp [buildTags, setAdd, h]

/-- C8 counterexample: a short body that itself ends in three dots
produces a preview ending in `...` although the collapsed body does not
exceed 140 characters, refuting the claimed equivalence. -/
theorem buildPreview_counterexample :
    endsWithDots (buildPreview "ok...") = true ∧ (collapsedBody "ok...").length ≤ 140 := by
  decide

/-- C8 amended: the preview is the collapsed body truncated to 140
characters (plus the ellipsis when truncated), its length is at most
143, and it ends with `...` iff the collapsed body exceeds 140
characters or itself ends with `...`. -/
theorem buildPreview_spec (body : String) :
    buildPreview body = String.mk (previewChars (collapsedBody body)) ∧
    (buildPreview body).length ≤ 143 ∧
    (endsWithDots (buildPreview body) = true ↔
      (140 < (collapsedBody body).length ∨
        endsWithDots (String.mk (collapsedBody body)) = true)) := by
  refine ⟨rfl, ?_, ?_⟩
  · show (previewChars (collapsedBody body)).length ≤ 143
    unfold previewChars
    by_cases h : 140 < (collapsedBody body).length
    · simp only [if_pos h, List.length_append, List.length_take]
      simp
    · simp only [if_neg h, List.length_append, List.length_take]
      simp
  · unfold buildPreview previewChars
    by_cases h : 140 < (collapsedBody body).length
    · have hdots : "...".data = ['.', '.', '.'] := rfl
      rw [if_pos h, hdots]
      unfold endsWithDots
      simp [List.reverse_append, h]
    · have htake : (collapsedBody body).take 140 = collapsedBody body :=
        List.take_of_length_le (by omega)
      rw [if_neg h, htake, List.append_nil]
      simp [h]

/-- C9: the handler errors exactly on an analyze request whose trimmed
content is empty and on an unrecognized mode; a compose request always
succeeds, and an empty objective falls back to the tone template's
subject. -/
theorem POST_spec :
    (∀ c th p, (POST (.analyzeReq c th p)).isErr = true ↔ trimStr c = "") ∧
    (∀ c th p, trimStr c ≠ "" →
      POST (.analyzeReq c th p) = .okAnalyze (analyzeEmail (trimStr c) th p)) ∧
    (∀ a o t k cta sg, (POST (.composeReq a o t k cta sg)).isErr = false) ∧
    ((POST .otherReq).isErr = true) ∧
    (∀ (a o : String) (t : Tone) (k : List String) (cta sg : Option String), trimStr o = "" →
      (composeEmail (trimStr a) (trimStr o) t k (cta.map trimStr) (sg.map trimStr)).subject =
        (FOLLOW_UP_TEMPLATES t).subject) := by
  refine ⟨?_, ?_, ?_, ?_, ?_⟩
  · intro c th p
    unfold POST
    by_cases h : trimStr c = "" <;> simp [h, ApiResponse.isErr]
  · intro c th p h
    unfold POST
    simp [h]
  · intro a o t k cta sg
    rfl
  · rfl
  · intro a o t k cta sg h
    rw [h]
    unfold composeEmail craftSubjectFromObjective
    simp

/-- Witness for C9 at concrete requests: whitespace-only analyze content
is rejected, a compose request with empty objective succeeds and takes
the warm template's subject. -/
theorem POST_spec_witness :
    ((POST (.analyzeReq "   " none none)).isErr = true) ∧
    ((POST (.composeReq "Team" "" Tone.warm ["a"] none none)).isErr = false) ∧
    (POST (.analyzeReq "Hello there." none none) =
      .okAnalyze (analyzeEmail (trimStr "Hello there.") none none)) ∧
    ((composeEmail (trimStr "Team") (trimStr "") Tone.warm ["a"]
        (Option.map trimStr none) (Option.map trimStr none)).subject = "Appreciate the note") :=
  ⟨(POST_spec.1 "   " none none).mpr (by decide),
   POST_spec.2.2.1 "Team" "" Tone.warm ["a"] none none,
   POST_spec.2.1 "Hello there." none none (by decide),
   POST_spec.2.2.2.2 "Team" "" Tone.warm ["a"] none none (by decide)⟩

/-- C6: every extracted task has a non-empty description, and the output
list is an order-preserving selection of the per-line tasks in source
line order. -/
theorem extractTasks_spec (content : String) :
    (∀ t ∈ extractTasks content, t.description ≠ "") ∧
    (extractTasks content).Sublist ((splitLines content.data).map mkTask) := by
  constructor
  · intro t ht
    have hp := List.of_mem_filter ht
    simpa using hp
  · show List.Sublist ((((splitLines content.data).filter isTaskLine).map mkTask).filter
        (fun t => t.description ≠ "")) ((splitLines content.data).map mkTask)
    exact (List.filter_sublist _).trans ((List.filter_sublist _).map mkTask)

/-- Witness for C6: a concrete extracted task, obtained through the
theorem, has a non-empty description. -/
theorem extractTasks_spec_witness :
    (Task.mk "Please review" none none).description ≠ "" :=
  (extractTasks_spec "Please review").1 (Task.mk "Please review" none none) (by decide)

/-- Reversal preserves the non-whitespace count. -/
theorem countNW_reverse (l : List Char) : countNW l.reverse = countNW l :=
  (List.reverse_perm l).countP_eq _

/-- Prepending a whitespace character leaves the count unchanged. -/
theorem countNW_cons_ws {c : Char} (l : List Char) (h : c.isWhitespace = true) :
    countNW (c :: l) = countNW l := by
  simp [countNW, List.countP_cons, h]

/-- Prepending a non-whitespace character raises the count by one. -/
theorem countNW_cons_nws {c : Char} (l : List Char) (h : c.isWhitespace = false) :
    countNW (c :: l) = countNW l + 1 := by
  simp [countNW, List.countP_cons, h]

/-- Newline collapsing preserves the non-whitespace count (newlines and
the spaces replacing them are both whitespace). -/
theorem countNW_collapseNL (b : Bool) (cs : List Char) :
    countNW (collapseNL b cs) = countNW cs := by
  induction cs generalizing b with
  | nil => rfl
  | cons c rest ih =>
    by_cases h : c = '\n'
    · subst h
      cases b
      · show countNW (' ' :: collapseNL true rest) = countNW ('\n' :: rest)
        rw [countNW_cons_ws _ (by decide), countNW_cons_ws _ (by decide)]
        exact ih true
      · show countNW (collapseNL true rest) = countNW ('\n' :: rest)
        rw [countNW_cons_ws _ (by decide)]
        exact ih true
    · unfold collapseNL
      rw [if_neg h]
      cases hw : c.isWhitespace
      · rw [countNW_cons_nws _ hw, countNW_cons_nws _ hw, ih false]
      · rw [countNW_cons_ws _ hw, countNW_cons_ws _ hw]
        exact ih false

/-- The sentence pieces jointly preserve the non-whitespace count: cut
whitespace runs contribute nothing. -/
theorem countNW_splitSentAux (cs : List Char) :
    ∀ (b : Bool) (acc : List Char), (b = true → acc = []) →
      ((splitSentAux b acc cs).map countNW).sum = countNW acc + countNW cs := by
  induction cs with
  | nil =>
    intro b acc _
    cases b <;> simp [splitSentAux, countNW_reverse, countNW]
  | cons c rest ih =>
    intro b acc hb
    have h0 : countNW ([] : List Char) = 0 := rfl
    cases b with
    | true =>
      have hacc : acc = [] := hb rfl
      subst hacc
      unfold splitSentAux
      cases hw : c.isWhitespace
      · rw [if_neg (by simp [hw])]
        rw [ih false [c] (fun h => by cases h)]
        rw [countNW_cons_nws _ hw, countNW_cons_nws _ hw]
        omega
      · rw [if_pos (by simp [hw])]
        rw [ih true [] (fun _ => rfl)]
        rw [countNW_cons_ws _ hw]
    | false =>
      unfold splitSentAux
      by_cases hcut : (c.isWhitespace && isPunctHead acc) = true
      · rw [if_pos hcut]
        have hcut2 := hcut
        simp only [Bool.and_eq_true] at hcut2
        simp only [List.map_cons, List.sum_cons]
        rw [ih true [] (fun _ => rfl), countNW_reverse, countNW_cons_ws _ hcut2.1]
        omega
      · rw [if_neg hcut]
        rw [ih false (c :: acc) (fun h => by cases h)]
        cases hw : c.isWhitespace
        · rw [countNW_cons_nws _ hw, countNW_cons_nws _ hw]
          omega
        · rw [countNW_cons_ws _ hw, countNW_cons_ws _ hw]

/-- A non-empty trim retains at least one non-whitespace character. -/
theorem countNW_trimChars_pos (cs : List Char) (h : trimChars cs ≠ []) :
    0 < countNW (trimChars cs) := by
  have he_ne : (cs.dropWhile (fun c => c.isWhitespace)).reverse.dropWhile
      (fun c => c.isWhitespace) ≠ [] := by
    intro hnil
    apply h
    unfold trimChars
    rw [hnil]
    rfl
  have hhead := List.head_dropWhile_not (fun c : Char => c.isWhitespace)
    (cs.dropWhile (fun c => c.isWhitespace)).reverse he_ne
  have hmem : ((cs.dropWhile (fun c => c.isWhitespace)).reverse.dropWhile
      (fun c => c.isWhitespace)).head he_ne ∈ trimChars cs := by
    unfold trimChars
    exact List.mem_reverse.2 (List.head_mem he_ne)
  unfold countNW
  exact List.countP_pos_iff.2 ⟨_, hmem, by simpa using hhead⟩

/-- A content with a non-whitespace character has a non-empty computed
summary: some sentence piece keeps that character, survives the
emptiness filter and heads the joined summary. -/
theorem computedSummary_ne_empty (s : String) (h : 0 < countNW s.data) :
    computedSummary s ≠ "" := by
  have hdata : ∀ (a b : String), (a ++ b).data = a.data ++ b.data := by
    intro a b
    cases a
    cases b
    rfl
  have hsum : ((sentencePieces s.data).map countNW).sum = countNW s.data := by
    unfold sentencePieces
    rw [countNW_splitSentAux _ false [] (fun hh => by cases hh)]
    rw [countNW_collapseNL]
    simp [countNW]
  have hex : ∃ p ∈ sentencePieces s.data, 0 < countNW p := by
    by_contra hno
    push_neg at hno
    have hzero : ((sentencePieces s.data).map countNW).sum = 0 := by
      apply List.sum_eq_zero
      intro x hx
      obtain ⟨p, hp, rfl⟩ := List.mem_map.1 hx
      exact Nat.le_zero.1 (hno p hp)
    omega
  obtain ⟨p, hp, hpos⟩ := hex
  have hpne : p ≠ [] := by
    intro hnil
    rw [hnil] at hpos
    simp [countNW] at hpos
  have hmem : String.mk p ∈ (sentencePieces s.data).map String.mk :=
    List.mem_map_of_mem _ hp
  have hne : (String.mk p : String) ≠ "" := by
    intro hh
    exact hpne (by simpa using congrArg String.data hh)
  have hfmem : String.mk p ∈
      ((sentencePieces s.data).map String.mk).filter (fun t => t ≠ "") :=
    List.mem_filter.2 ⟨hmem, by simpa using hne⟩
  have hFne : ((sentencePieces s.data).map String.mk).filter (fun t => t ≠ "") ≠ [] :=
    List.ne_nil_of_mem hfmem
  obtain ⟨hd, tl, hcons⟩ := List.exists_cons_of_ne_nil hFne
  have hhd : hd ≠ "" := by
    have hmem2 : hd ∈ ((sentencePieces s.data).map String.mk).filter (fun t => t ≠ "") := by
      rw [hcons]
      exact List.mem_cons_self _ _
    simpa using List.of_mem_filter hmem2
  unfold computedSummary
  rw [hcons, List.take_succ_cons]
  cases htl : tl.take 2 with
  | nil => simpa [joinWith] using hhd
  | cons x xs =>
    show hd ++ " " ++ joinWith " " (x :: xs) ≠ ""
    intro hh
    have hd2 := congrArg String.data hh
    rw [hdata, hdata] at hd2
    have hspd : (" " : String).data = [' '] := rfl
    rw [hspd] at hd2
    simp at hd2

/-- When the computed summary is non-empty, the summary is independent of
the thread history. -/
theorem summarize_hist_irrel (c : String) (h : computedSummary c ≠ "")
    (th1 th2 : Option String) : summarize c th1 = summarize c th2 := by
  unfold summarize
  rw [if_neg h, if_neg h]

/-- C5: on content that is non-empty after trimming (the only content the
pipeline runs on), the whole analysis result is independent of the
thread history. -/
theorem analyze_threadHistory_independent (content : String)
    (th1 th2 persona : Option String) (h : trimStr content ≠ "") :
    analyzeEmail (trimStr content) th1 persona = analyzeEmail (trimStr content) th2 persona := by
  have hne : trimChars content.data ≠ [] := by
    intro hh
    exact h (by unfold trimStr; rw [hh])
  have hpos : 0 < countNW (trimStr content).data := countNW_trimChars_pos _ hne
  have hsummary := computedSummary_ne_empty _ hpos
  have hs := summarize_hist_irrel _ hsummary th1 th2
  rw [analyzeEmail_eq, analyzeEmail_eq, hs]

/-- Witness for C5: the same content analyzed with and without a thread
history gives identical results. -/
theorem analyze_threadHistory_independent_witness :
    analyzeEmail (trimStr "Hi there.") (some "earlier thread words") none =
      analyzeEmail (trimStr "Hi there.") none none :=
  analyze_threadHistory_independent "Hi there." (some "earlier thread words") none none
    (by decide)

end EmailAgent
